import Mathlib

/-!
# PartyViz — verification of the audio/rotation core

Shallow embedding of the PartyViz audio pipeline (`audio-manager.js`), the
loader / rotation controller (`index.js`) and the reference visual module
(`animations/template/template-animation.js`), with theorems settling the
spec's claims about them.

Numbers: JS numbers are modelled as `ℚ` (the values flowing through the
pipeline are finite; no claim here depends on float rounding), byte
magnitudes from `Uint8Array` as `ℕ`, and `Math.floor` as `Int.floor`.
-/

set_option autoImplicit false

namespace PartyViz

/-! ## Band Extractor — `AudioManager.getAverageVolume` (audio-manager.js 91–101)

The magnitude array is a `Uint8Array`: every in-range index holds a byte
value (a natural number); `array[i]` is `undefined` exactly when
`i ≥ array.length`, which `List.get?` models as `none`. -/

/-- Sum of a list of byte magnitudes, as a rational (JS `values` adds
numbers; the magnitudes are naturals). -/
def qsum (l : List ℕ) : ℚ := (l.map (fun v => (v : ℚ))).sum

/-- One iteration of the `for (let i = start; i < end; i++)` loop body:
`if (array[i] !== undefined) { values += array[i]; count++; }`.
The accumulator carries `(values, count)`. -/
def avgStep (array : List ℕ) (acc : ℚ × ℕ) (i : ℕ) : ℚ × ℕ :=
  match array[i]? with
  | some v => (acc.1 + (v : ℚ), acc.2 + 1)
  | none => acc

/-- `getAverageVolume(array, start, end)`: sums the defined entries of
`array` over the half-open index range `[s, e)` and returns
`count === 0 ? 0 : values / count`. -/
def getAverageVolume (array : List ℕ) (s e : ℕ) : ℚ :=
  let r := (List.range' s (e - s)).foldl (avgStep array) (0, 0)
  if r.2 = 0 then 0 else r.1 / r.2

/-- The defined entries of the range `[s, e)`, in order. -/
def definedEntries (array : List ℕ) (s e : ℕ) : List ℕ :=
  (List.range' s (e - s)).filterMap (getElem? array)

/-- Band Extractor output as the spec words it: "the arithmetic mean of
the magnitudes in its assigned bin range, treating an empty or
undefined-valued range as average 0". -/
def specAverage (array : List ℕ) (s e : ℕ) : ℚ :=
  let vs := definedEntries array s e
  if vs = [] then 0 else qsum vs / vs.length

/-! ## Frame Normalizer — clamp and floor (audio-manager.js 124–130)

Each delivered band value is
`Math.floor(Math.min(100, Math.max(0, x)))` for a raw `x` (a synthetic
`Math.random()*100`, or a live average scaled by `/255*100` and, for the
high band, boosted by `*1.2`). -/

/-- `Math.min(100, Math.max(0, x))` applied to a raw band value. -/
def clampBand (x : ℚ) : ℚ := min 100 (max 0 x)

/-- A delivered band value: clamp then `Math.floor` (the value actually
passed to `updateFrequencies`). -/
def normFloor (x : ℚ) : ℤ := ⌊clampBand x⌋

/-- Live-path scaling for the low/mid bands: `(avg / 255) * 100`. -/
def scaleBand (avg : ℚ) : ℚ := avg / 255 * 100

/-- Live-path scaling for the high band: `(avg / 255) * 100 * 1.2`. -/
def scaleHigh (avg : ℚ) : ℚ := avg / 255 * 100 * (12 / 10)

/-! ## Signal Source Switch — `AudioManager` state (audio-manager.js 2–89)

The mutable fields of `AudioManager` that the source-switch claims touch.
`stream`/`source` are references: `none` is JS `null`; `some b` is a held
reference whose tracks are still live / whose node is still connected iff
`b`. `droppedLive` counts stream references that were overwritten while
their tracks were still live (a leaked device handle). The browser
environment is modelled by the `success` outcome of `getUserMedia`. -/

structure AMState where
  audioCtx : Bool
  ctxRunning : Bool
  stream : Option Bool
  source : Option Bool
  droppedLive : ℕ
  isLive : Bool
  isTestMode : Bool

/-- The `AudioManager` constructor: everything null, `isLive = false`,
`isTestMode = true`. -/
def amInit : AMState :=
  { audioCtx := false, ctxRunning := false, stream := none, source := none,
    droppedLive := 0, isLive := false, isTestMode := true }

/-- Number of device capture handles currently held live. -/
def liveHandles (s : AMState) : ℕ :=
  s.droppedLive + (if s.stream = some true then 1 else 0)

/-- The Distribution Loop's source choice (audio-manager.js 109):
`this.isTestMode || !this.isLive` selects the synthetic branch. -/
def syntheticActive (s : AMState) : Bool := s.isTestMode || !s.isLive

/-- `setTestMode(enabled)`: sets the flag, then suspends the audio context
when entering test mode and resumes it when leaving (audio-manager.js
19–26). It never touches `stream` or `source`. -/
def setTestMode (s : AMState) (enabled : Bool) : AMState :=
  let s1 := { s with isTestMode := enabled }
  if s1.audioCtx then
    if enabled && s1.ctxRunning then { s1 with ctxRunning := false }
    else if !enabled && !s1.ctxRunning then { s1 with ctxRunning := true }
    else s1
  else s1

/-- `enableLiveInput(deviceId)` (audio-manager.js 42–89), with the
`getUserMedia` outcome passed in as `success`. Steps, in source order:
create the context/analyser if missing; stop the existing stream's tracks
and disconnect the existing source (references kept); await `getUserMedia`
— on failure the `catch` returns `false` with the state as mutated so far;
on success install the new stream/source, set `isLive`, clear
`isTestMode`, and resume a suspended context. -/
def enableLiveInput (s : AMState) (success : Bool) : AMState × Bool :=
  let s1 := if s.audioCtx then s else { s with audioCtx := true, ctxRunning := true }
  let s2 := match s1.stream with
    | some _ => { s1 with stream := some false }
    | none => s1
  let s3 := match s2.source with
    | some _ => { s2 with source := some false }
    | none => s2
  if success then
    let s4 := { s3 with
      droppedLive := s3.droppedLive + (if s3.stream = some true then 1 else 0),
      stream := some true, source := some true,
      isLive := true, isTestMode := false }
    let s5 := if !s4.ctxRunning then { s4 with ctxRunning := true } else s4
    (s5, true)
  else
    (s3, false)

/-- External requests against the `AudioManager`: the test-mode toggle and
a live-input request (first grant, device switch, or failure). -/
inductive AMOp
  | setTest (enabled : Bool)
  | enable (success : Bool)

def amStep (s : AMState) : AMOp → AMState
  | .setTest b => setTestMode s b
  | .enable ok => (enableLiveInput s ok).1

def amRun (s : AMState) (ops : List AMOp) : AMState := ops.foldl amStep s

/-! ## Module Lifecycle — `TemplateAnimation.start`/`stop`
(template-animation.js 144–167)

Only `frameId` is lifecycle-relevant: the constructor nulls it; `start()`
does nothing when `frameId` is set and otherwise (after a `resize()` that
touches only layout fields) registers `drawFrame` and stores the handle —
the two branches of its `initialized` test are identical; `stop()` cancels
and nulls the handle when set and does nothing otherwise. The browser's
animation-frame registry is `RafEnv`: `requestAnimationFrame` returns a
fresh handle and records the pending callback, `cancelAnimationFrame`
removes it. -/

structure RafEnv where
  nextId : ℕ
  active : List ℕ
  deriving DecidableEq

structure TemplateAnim where
  frameId : Option ℕ
  deriving DecidableEq

/-- Constructor state: `this.frameId = null`. -/
def templateNew : TemplateAnim := { frameId := none }

def rafRequest (e : RafEnv) : ℕ × RafEnv :=
  (e.nextId, { nextId := e.nextId + 1, active := e.nextId :: e.active })

def rafCancel (e : RafEnv) (h : ℕ) : RafEnv :=
  { e with active := e.active.erase h }

/-- `start()`: `if (!this.frameId) { ... this.frameId =
requestAnimationFrame(this.drawFrame) }`. -/
def templateStart (t : TemplateAnim) (e : RafEnv) : TemplateAnim × RafEnv :=
  match t.frameId with
  | none =>
      let r := rafRequest e
      ({ frameId := some r.1 }, r.2)
  | some _ => (t, e)

/-- `stop()`: `if (this.frameId) { cancelAnimationFrame(this.frameId);
this.frameId = null }`. -/
def templateStop (t : TemplateAnim) (e : RafEnv) : TemplateAnim × RafEnv :=
  match t.frameId with
  | some h => ({ frameId := none }, rafCancel e h)
  | none => (t, e)

/-! ## Distribution Loop — one `startLoop` tick (audio-manager.js 103–134)

A tick first registers the next animation frame (`this.rafId =
requestAnimationFrame(loop)`), then computes the three raw band values
(synthetic randoms or scaled live averages — both covered by quantifying
over the raw triple), clamps and floors them, and delivers them to
`window.currentAnimation.updateFrequencies` if that target exists and the
hook is a function. The hook may throw: its outcome is the `Except` value
the callback finishes with — there is no `try`/`catch` in the loop. -/

structure TickModule where
  update : Option (ℤ → ℤ → ℤ → Except String Unit)

structure LoopState where
  rafId : Option ℕ
  nextRafHandle : ℕ

def tick (m : Option TickModule) (raw : ℚ × ℚ × ℚ) (s : LoopState) :
    LoopState × Except String Unit :=
  let s1 : LoopState :=
    { rafId := some s.nextRafHandle, nextRafHandle := s.nextRafHandle + 1 }
  match m with
  | some tm =>
      match tm.update with
      | some f => (s1, f (normFloor raw.1) (normFloor raw.2.1) (normFloor raw.2.2))
      | none => (s1, .ok ())
  | none => (s1, .ok ())

/-- A module whose `updateFrequencies` always throws. -/
def throwingModule : TickModule :=
  { update := some fun _ _ _ => .error "boom" }

/-! ## Rotation Controller — `init` in index.js (part_000 257–430)

One loaded entry per manifest item: whether its renderer instantiated
(`instance` non-null — entries whose canvas or exported class was missing
are pushed with `instance: null`), whether the instance exposes
`start`/`stop` hooks, and its `config.duration`. A conforming instance
(the template module is the reference) is Running exactly when its frame
handle is set: `start()` makes it Running, `stop()` makes it Stopped; the
controller's per-entry `running` list tracks that state. `current` holds
the index of `currentItem` (the loaded list never changes, so the item
reference and its index are interchangeable); `timer` is the pending
auto-advance timeout's delay in seconds, `none` when no timeout is
pending. JS array indexing and `%` are modelled by `idxGet` (negative or
out-of-range reads give `undefined`) and `Int.tmod` (JS `%` truncates). -/

structure Item where
  hasInstance : Bool
  hasStart : Bool
  hasStop : Bool
  duration : Option ℕ
  deriving DecidableEq

structure RotState where
  loaded : List Item
  running : List Bool
  currentIndex : ℤ
  current : Option ℤ
  paused : Bool
  timer : Option ℕ
  deriving DecidableEq

/-- JS `array[i]`: `undefined` (`none`) for negative or out-of-range `i`. -/
def idxGet {α : Type} (l : List α) (i : ℤ) : Option α :=
  if 0 ≤ i then l.get? i.toNat else none

/-- Set the running flag of the instance at index `i`. -/
def setRun (l : List Bool) (i : ℤ) (b : Bool) : List Bool :=
  if 0 ≤ i then l.set i.toNat b else l

/-- `(item && item.config && item.config.duration) || DEFAULT_DURATION`:
the entry's configured duration, with `8` for a missing entry, a missing
field, or a falsy (`0`) value. -/
def durationOf (it : Option Item) : ℕ :=
  match it with
  | some it =>
      match it.duration with
      | some d => if d = 0 then 8 else d
      | none => 8
  | none => 8

/-- First half of `showIndex`: `if (currentItem && currentItem.instance &&
typeof currentItem.instance.stop === 'function') currentItem.instance.stop()`. -/
def stopCurrent (s : RotState) : RotState :=
  match s.current with
  | some j =>
      match idxGet s.loaded j with
      | some it =>
          if it.hasInstance && it.hasStop then
            { s with running := setRun s.running j false }
          else s
      | none => s
  | none => s

/-- `showIndex(index)`: stop the current instance, hide all views
(display-only, no model state), then — if `loaded[index]` exists — show
its view, start its instance when it has one with a `start` hook, and
update `currentItem`/`currentIndex`. When `loaded[index]` is `undefined`
the function returns after the stop/hide phase. -/
def showIndex (s : RotState) (i : ℤ) : RotState :=
  let s1 := stopCurrent s
  match idxGet s1.loaded i with
  | none => s1
  | some it =>
      let s2 :=
        if it.hasInstance && it.hasStart then
          { s1 with running := setRun s1.running i true }
        else s1
      { s2 with current := some i, currentIndex := i }

/-- `rotateNext(step)`: compute `(currentIndex + step + loaded.length) %
loaded.length` with JS truncating `%`, `showIndex` it, clear any pending
timeout, and — unless paused — schedule the next advance after the new
item's duration. -/
def rotateNext (s : RotState) (step : ℤ) : RotState :=
  let n : ℤ := s.loaded.length
  let next := (s.currentIndex + step + n).tmod n
  let s1 := showIndex s next
  let d := durationOf (idxGet s1.loaded next)
  let s2 := { s1 with timer := none }
  if s2.paused then s2 else { s2 with timer := some d }

/-- The pause button handler: toggle `paused`; entering pause clears the
pending timeout; leaving pause re-arms a timeout sized to the duration of
the *next* item, `loaded[(currentIndex + 1) % loaded.length]`. -/
def pauseClick (s : RotState) : RotState :=
  let s1 := { s with paused := !s.paused }
  if s1.paused then { s1 with timer := none }
  else
    let nextIndex := (s1.currentIndex + 1).tmod (s1.loaded.length : ℤ)
    let d := durationOf (idxGet s1.loaded nextIndex)
    { s1 with timer := some d }

/-- Startup (`init`): with no loaded entries init aborts before the
rotation system exists; otherwise `showIndex(0)` runs and the first
auto-advance is scheduled after the current item's duration. -/
def rotInit (loaded : List Item) : RotState :=
  let s0 : RotState :=
    { loaded := loaded, running := List.replicate loaded.length false,
      currentIndex := 0, current := none, paused := false, timer := none }
  if loaded.isEmpty then s0
  else
    let s1 := showIndex s0 0
    let d := durationOf (match s1.current with
      | some j => idxGet s1.loaded j
      | none => none)
    { s1 with timer := some d }

/-- The events that drive the controller: a debug `showIndex`, a raw
`window.rotateNext(step)`, the next/prev buttons (which un-pause first),
the pause/resume button, and the pending auto-advance timeout firing
(possible only while a timeout is pending). -/
inductive RotOp
  | showIdx (i : ℤ)
  | rotate (step : ℤ)
  | nextBtn
  | prevBtn
  | pauseBtn
  | fire

def rotStep (s : RotState) : RotOp → RotState
  | .showIdx i => showIndex s i
  | .rotate k => rotateNext s k
  | .nextBtn => rotateNext { s with paused := false } 1
  | .prevBtn => rotateNext { s with paused := false } (-1)
  | .pauseBtn => pauseClick s
  | .fire =>
      match s.timer with
      | some _ => rotateNext s 1
      | none => s

def rotRun (s : RotState) (ops : List RotOp) : RotState := ops.foldl rotStep s

/-- All loaded entries have a live instance exposing both hooks. -/
def fullLoaded (loaded : List Item) : Prop :=
  ∀ it ∈ loaded, it.hasInstance = true ∧ it.hasStart = true ∧ it.hasStop = true

instance (l : List Item) : Decidable (fullLoaded l) :=
  inferInstanceAs (Decidable (∀ it ∈ l,
    it.hasInstance = true ∧ it.hasStart = true ∧ it.hasStop = true))

/-- Running flags with exactly the instance at `j` running. -/
def oneHot (n j : ℕ) : List Bool := (List.replicate n false).set j true

/-- The controller's healthy shape: a valid current index whose instance
alone is running. -/
def goodRot (s : RotState) : Prop :=
  ∃ j : ℕ, j < s.loaded.length ∧ s.current = some (j : ℤ) ∧
    s.currentIndex = (j : ℤ) ∧ s.running = oneHot s.loaded.length j

/-- The state before the first `showIndex`, or a healthy state. -/
def preRot (s : RotState) : Prop :=
  (s.current = none ∧ s.running = List.replicate s.loaded.length false) ∨ goodRot s

/-- Operations as the UI and timer issue them: `showIndex` with an
in-range index, `rotateNext` with a single forward/backward step. -/
def opOk (n : ℕ) : RotOp → Bool
  | .showIdx i => decide (0 ≤ i) && decide (i < (n : ℤ))
  | .rotate k => decide (k = 1) || decide (k = -1)
  | _ => true

/-- A loaded entry whose renderer instantiated, with a configured
duration. -/
def fullItem (d : ℕ) : Item :=
  { hasInstance := true, hasStart := true, hasStop := true, duration := some d }

/-- A loaded entry whose renderer failed to instantiate (`instance:
null`), as `loadAnimations` pushes when the canvas or exported class is
missing. -/
def ghostItem : Item :=
  { hasInstance := false, hasStart := false, hasStop := false, duration := none }

def pausedInv (s : RotState) : Prop := s.paused = true → s.timer = none

/-! ## Lemmas -/

lemma qsum_cons (v : ℕ) (t : List ℕ) : qsum (v :: t) = (v : ℚ) + qsum t := by
  simp [qsum]

lemma qsum_nonneg (l : List ℕ) : 0 ≤ qsum l := by
  induction l with
  | nil => simp [qsum]
  | cons v t ih =>
      rw [qsum_cons]
      exact add_nonneg (Nat.cast_nonneg _) ih

lemma avgStep_foldl (array : List ℕ) (l : List ℕ) (v0 : ℚ) (c0 : ℕ) :
    l.foldl (avgStep array) (v0, c0) =
      (v0 + qsum (l.filterMap (getElem? array)),
       c0 + (l.filterMap (getElem? array)).length) := by
  induction l generalizing v0 c0 with
  | nil => simp [qsum]
  | cons i t ih =>
      rw [List.foldl_cons]
      cases h : array[i]? with
      | none =>
          rw [List.filterMap_cons_none h]
          have hstep : avgStep array (v0, c0) i = (v0, c0) := by
            simp [avgStep, h]
          rw [hstep]
          exact ih v0 c0
      | some v =>
          rw [List.filterMap_cons_some h]
          have hstep : avgStep array (v0, c0) i = (v0 + (v : ℚ), c0 + 1) := by
            simp [avgStep, h]
          rw [hstep, ih, qsum_cons, List.length_cons, Prod.mk.injEq]
          constructor
          · ring
          · omega

lemma getAverageVolume_eq (array : List ℕ) (s e : ℕ) :
    getAverageVolume array s e = specAverage array s e := by
  unfold getAverageVolume specAverage
  rw [avgStep_foldl]
  rcases h : definedEntries array s e with _ | ⟨v, t⟩ <;>
    simp_all [definedEntries, List.length_eq_zero]

lemma specAverage_nonneg (array : List ℕ) (s e : ℕ) :
    0 ≤ specAverage array s e := by
  unfold specAverage
  rcases eq_or_ne (definedEntries array s e) [] with h | h
  · simp [h]
  · simp only [h, if_false]
    exact div_nonneg (qsum_nonneg _) (Nat.cast_nonneg _)

lemma normFloor_nonneg (x : ℚ) : 0 ≤ normFloor x := by
  unfold normFloor clampBand
  rcases le_total 100 (max 0 x) with h | h
  · rw [min_eq_left h]
    norm_num
  · rw [min_eq_right h]
    exact Int.le_floor.mpr (by exact_mod_cast le_max_left 0 x)

lemma normFloor_le (x : ℚ) : normFloor x ≤ 100 := by
  unfold normFloor clampBand
  have h : min (100 : ℚ) (max 0 x) ≤ 100 := min_le_left _ _
  calc ⌊min (100 : ℚ) (max 0 x)⌋ ≤ ⌊(100 : ℚ)⌋ := Int.floor_le_floor h
    _ = 100 := by norm_num

lemma liveHandles_le (s : AMState) : liveHandles s ≤ s.droppedLive + 1 := by
  unfold liveHandles
  split <;> omega

lemma setTestMode_stream (s : AMState) (b : Bool) :
    (setTestMode s b).stream = s.stream ∧
      (setTestMode s b).droppedLive = s.droppedLive := by
  unfold setTestMode
  dsimp only
  split <;> [skip; exact ⟨rfl, rfl⟩]
  split <;> [exact ⟨rfl, rfl⟩; skip]
  split <;> exact ⟨rfl, rfl⟩

lemma liveHandles_setTestMode (s : AMState) (b : Bool) :
    liveHandles (setTestMode s b) = liveHandles s := by
  unfold liveHandles
  rw [(setTestMode_stream s b).1, (setTestMode_stream s b).2]

lemma enableLiveInput_droppedLive (s : AMState) (ok : Bool) :
    ((enableLiveInput s ok).1).droppedLive = s.droppedLive := by
  obtain ⟨ctx, run, st, src, d, live, test⟩ := s
  unfold enableLiveInput
  cases ctx <;> cases st <;> cases src <;> cases ok <;> simp <;> split <;> rfl

lemma amStep_droppedLive (s : AMState) (op : AMOp) :
    (amStep s op).droppedLive = s.droppedLive := by
  cases op with
  | setTest b => exact (setTestMode_stream s b).2
  | enable ok => exact enableLiveInput_droppedLive s ok

lemma amRun_droppedLive (ops : List AMOp) (s : AMState) :
    (amRun s ops).droppedLive = s.droppedLive := by
  induction ops generalizing s with
  | nil => rfl
  | cons op t ih =>
      show (amRun (amStep s op) t).droppedLive = s.droppedLive
      rw [ih, amStep_droppedLive]

lemma tick_state (m : Option TickModule) (raw : ℚ × ℚ × ℚ) (s : LoopState) :
    (tick m raw s).1 =
      { rafId := some s.nextRafHandle, nextRafHandle := s.nextRafHandle + 1 } := by
  rcases m with _ | tm
  · rfl
  · rcases htm : tm.update with _ | f <;> simp [tick, htm]

/-! ## Rotation lemmas -/

lemma replicate_set_false (n j : ℕ) :
    (List.replicate n false).set j false = List.replicate n false := by
  induction n generalizing j with
  | zero => rfl
  | succ n ih =>
      cases j with
      | zero => simp [List.replicate_succ]
      | succ j => simp [List.replicate_succ, ih]

lemma oneHot_set_false (n j : ℕ) :
    (oneHot n j).set j false = List.replicate n false := by
  unfold oneHot
  rw [List.set_set]
  exact replicate_set_false n j

lemma count_replicate_false (n : ℕ) :
    (List.replicate n false).count true = 0 := by
  induction n with
  | zero => rfl
  | succ n ih => simp [List.replicate_succ, List.count_cons, ih]

lemma count_oneHot (n j : ℕ) (h : j < n) : (oneHot n j).count true = 1 := by
  induction n generalizing j with
  | zero => omega
  | succ n ih =>
      cases j with
      | zero =>
          simp [oneHot, List.replicate_succ, List.count_cons, count_replicate_false]
      | succ j =>
          have hj : j < n := by omega
          simp only [oneHot, List.replicate_succ, List.set_cons_succ, List.count_cons]
          simpa [oneHot] using ih j hj

lemma idxGet_natCast {α : Type} (l : List α) (j : ℕ) :
    idxGet l (j : ℤ) = l.get? j := by
  simp [idxGet]

lemma setRun_natCast (l : List Bool) (j : ℕ) (b : Bool) :
    setRun l (j : ℤ) b = l.set j b := by
  simp [setRun]

lemma stopCurrent_fields (s : RotState) :
    (stopCurrent s).loaded = s.loaded ∧ (stopCurrent s).current = s.current ∧
      (stopCurrent s).currentIndex = s.currentIndex ∧
      (stopCurrent s).paused = s.paused ∧ (stopCurrent s).timer = s.timer := by
  obtain ⟨l, r, ci, cur, p, t⟩ := s
  unfold stopCurrent
  (repeat' split) <;> exact ⟨rfl, rfl, rfl, rfl, rfl⟩

lemma stopCurrent_running (s : RotState) (hfull : fullLoaded s.loaded)
    (hpre : preRot s) :
    (stopCurrent s).running = List.replicate s.loaded.length false := by
  obtain ⟨l, r, ci, cur, p, t⟩ := s
  rcases hpre with ⟨hc, hr⟩ | ⟨j, hj, hc, hci, hr⟩ <;> dsimp only at hc hr ⊢
  · subst hc
    subst hr
    rfl
  · subst hc
    dsimp only at hj hfull
    obtain ⟨it, hit⟩ : ∃ it, l.get? j = some it := ⟨_, List.get?_eq_get hj⟩
    obtain ⟨h1, h2, h3⟩ := hfull it (List.get?_mem hit)
    unfold stopCurrent
    dsimp only
    rw [idxGet_natCast, hit]
    dsimp only
    rw [if_pos (by rw [h1, h3]; rfl)]
    dsimp only
    rw [setRun_natCast, hr, oneHot_set_false]

lemma showIndex_good (s : RotState) (i : ℤ) (hfull : fullLoaded s.loaded)
    (hpre : preRot s) (h0 : 0 ≤ i) (hi : i < (s.loaded.length : ℤ)) :
    goodRot (showIndex s i) ∧ (showIndex s i).loaded = s.loaded ∧
      (showIndex s i).paused = s.paused ∧ (showIndex s i).timer = s.timer := by
  obtain ⟨hl, hcu, hci, hp, ht⟩ := stopCurrent_fields s
  have hrun := stopCurrent_running s hfull hpre
  have hlt : i.toNat < s.loaded.length := by omega
  obtain ⟨it, hit⟩ : ∃ it, s.loaded.get? i.toNat = some it :=
    ⟨_, List.get?_eq_get hlt⟩
  obtain ⟨h1, h2, h3⟩ := hfull it (List.get?_mem hit)
  have hidx : idxGet (stopCurrent s).loaded i = some it := by
    unfold idxGet
    rw [if_pos h0, hl]
    exact hit
  simp only [showIndex]
  rw [hidx]
  dsimp only
  rw [if_pos (by rw [h1, h2]; rfl)]
  refine ⟨⟨i.toNat, ?_, ?_, ?_, ?_⟩, ?_, ?_, ?_⟩
  · show i.toNat < (stopCurrent s).loaded.length
    rw [hl]
    exact hlt
  · show some i = some ((i.toNat : ℕ) : ℤ)
    rw [Int.toNat_of_nonneg h0]
  · show i = ((i.toNat : ℕ) : ℤ)
    rw [Int.toNat_of_nonneg h0]
  · show setRun (stopCurrent s).running i true = oneHot (stopCurrent s).loaded.length i.toNat
    unfold setRun
    rw [if_pos h0, hrun, hl, oneHot]
  · exact hl
  · exact hp
  · exact ht

lemma goodRot_of_fields {s s' : RotState} (h : goodRot s) (hl : s'.loaded = s.loaded)
    (hr : s'.running = s.running) (hc : s'.current = s.current)
    (hci : s'.currentIndex = s.currentIndex) : goodRot s' := by
  obtain ⟨j, h1, h2, h3, h4⟩ := h
  exact ⟨j, by rw [hl]; exact h1, by rw [hc]; exact h2, by rw [hci]; exact h3,
    by rw [hr, hl]; exact h4⟩

lemma rotateNext_good (s : RotState) (k : ℤ) (hfull : fullLoaded s.loaded)
    (hgood : goodRot s) (hk : k = 1 ∨ k = -1) :
    goodRot (rotateNext s k) ∧ (rotateNext s k).loaded = s.loaded := by
  obtain ⟨j, hj, hc, hci, hr⟩ := hgood
  have hn : 1 ≤ s.loaded.length := by omega
  have ha : 0 ≤ s.currentIndex + k + (s.loaded.length : ℤ) := by
    rcases hk with rfl | rfl <;> (rw [hci]; omega)
  have hb : (0 : ℤ) < (s.loaded.length : ℤ) := by exact_mod_cast hn
  have h0 : 0 ≤ (s.currentIndex + k + (s.loaded.length : ℤ)).tmod (s.loaded.length : ℤ) := by
    rw [Int.tmod_eq_emod ha (le_of_lt hb)]
    exact Int.emod_nonneg _ (ne_of_gt hb)
  have hlt : (s.currentIndex + k + (s.loaded.length : ℤ)).tmod (s.loaded.length : ℤ) <
      (s.loaded.length : ℤ) := Int.tmod_lt_of_pos _ hb
  obtain ⟨hg, hl, hp, ht⟩ :=
    showIndex_good s ((s.currentIndex + k + (s.loaded.length : ℤ)).tmod (s.loaded.length : ℤ))
      hfull (Or.inr ⟨j, hj, hc, hci, hr⟩) h0 hlt
  simp only [rotateNext]
  split
  · exact ⟨goodRot_of_fields hg rfl rfl rfl rfl, hl⟩
  · exact ⟨goodRot_of_fields hg rfl rfl rfl rfl, hl⟩

lemma pauseClick_fields (s : RotState) :
    (pauseClick s).loaded = s.loaded ∧ (pauseClick s).running = s.running ∧
      (pauseClick s).current = s.current ∧
      (pauseClick s).currentIndex = s.currentIndex := by
  obtain ⟨l, r, ci, cur, p, t⟩ := s
  cases p <;> exact ⟨rfl, rfl, rfl, rfl⟩

lemma rotStep_fire (s : RotState) :
    rotStep s RotOp.fire = (if s.timer = none then s else rotateNext s 1) := by
  simp only [rotStep]
  split
  · next d heq => simp [heq]
  · next heq => simp [heq]

lemma rotStep_good (s : RotState) (op : RotOp) (hfull : fullLoaded s.loaded)
    (hgood : goodRot s) (hop : opOk s.loaded.length op = true) :
    goodRot (rotStep s op) ∧ (rotStep s op).loaded = s.loaded := by
  cases op with
  | showIdx i =>
      simp only [opOk, Bool.and_eq_true, decide_eq_true_eq] at hop
      obtain ⟨hg, hl, _, _⟩ :=
        showIndex_good s i hfull (Or.inr hgood) hop.1 hop.2
      exact ⟨hg, hl⟩
  | rotate k =>
      simp only [opOk, Bool.or_eq_true, decide_eq_true_eq] at hop
      exact rotateNext_good s k hfull hgood hop
  | nextBtn =>
      exact rotateNext_good { s with paused := false } 1 hfull
        (goodRot_of_fields hgood rfl rfl rfl rfl) (Or.inl rfl)
  | prevBtn =>
      exact rotateNext_good { s with paused := false } (-1) hfull
        (goodRot_of_fields hgood rfl rfl rfl rfl) (Or.inr rfl)
  | pauseBtn =>
      obtain ⟨hl, hr, hc, hci⟩ := pauseClick_fields s
      exact ⟨goodRot_of_fields hgood hl hr hc hci, hl⟩
  | fire =>
      rw [rotStep_fire s]
      split
      · exact ⟨hgood, rfl⟩
      · exact rotateNext_good s 1 hfull hgood (Or.inl rfl)

lemma rotRun_good (ops : List RotOp) (s : RotState) (hfull : fullLoaded s.loaded)
    (hgood : goodRot s) (hops : ∀ op ∈ ops, opOk s.loaded.length op = true) :
    goodRot (rotRun s ops) ∧ (rotRun s ops).loaded = s.loaded := by
  induction ops generalizing s with
  | nil => exact ⟨hgood, rfl⟩
  | cons op t ih =>
      obtain ⟨hg1, hl1⟩ := rotStep_good s op hfull hgood (hops op (.head t))
      have hfull1 : fullLoaded (rotStep s op).loaded := by rw [hl1]; exact hfull
      have hops1 : ∀ o ∈ t, opOk (rotStep s op).loaded.length o = true := by
        intro o ho
        rw [hl1]
        exact hops o (.tail op ho)
      obtain ⟨hg2, hl2⟩ := ih (rotStep s op) hfull1 hg1 hops1
      exact ⟨hg2, by rw [show rotRun s (op :: t) = rotRun (rotStep s op) t from rfl, hl2, hl1]⟩

lemma rotInit_good (loaded : List Item) (h1 : loaded ≠ [])
    (hfull : fullLoaded loaded) :
    goodRot (rotInit loaded) ∧ (rotInit loaded).loaded = loaded := by
  have hne : loaded.isEmpty = false := by
    cases loaded with
    | nil => exact absurd rfl h1
    | cons a t => rfl
  have hlen : 0 < loaded.length := by
    cases loaded with
    | nil => exact absurd rfl h1
    | cons a t => simp
  simp only [rotInit, hne, Bool.false_eq_true, if_false]
  obtain ⟨hg, hl, _, _⟩ :=
    showIndex_good
      { loaded := loaded, running := List.replicate loaded.length false,
        currentIndex := 0, current := none, paused := false, timer := none }
      0 hfull (Or.inl ⟨rfl, rfl⟩) le_rfl (by exact_mod_cast hlen)
  exact ⟨goodRot_of_fields hg rfl rfl rfl rfl, hl⟩

lemma goodRot_count (s : RotState) (h : goodRot s) : s.running.count true = 1 := by
  obtain ⟨j, hj, _, _, hr⟩ := h
  rw [hr]
  exact count_oneHot _ _ hj

/-! ### Pause invariant: while paused, no auto-advance timeout is pending -/

lemma showIndex_paused_timer (s : RotState) (i : ℤ) :
    (showIndex s i).paused = s.paused ∧ (showIndex s i).timer = s.timer := by
  obtain ⟨h1, h2, h3, h4, h5⟩ := stopCurrent_fields s
  simp only [showIndex]
  cases hg : idxGet (stopCurrent s).loaded i with
  | none => exact ⟨h4, h5⟩
  | some it =>
      dsimp only
      split <;> exact ⟨h4, h5⟩

lemma rotateNext_pausedInv (s : RotState) (k : ℤ) : pausedInv (rotateNext s k) := by
  unfold pausedInv
  simp only [rotateNext]
  split
  · intro hp
    rfl
  · next h =>
      intro hp
      exact absurd hp h

lemma pauseClick_pausedInv (s : RotState) : pausedInv (pauseClick s) := by
  unfold pausedInv
  simp only [pauseClick]
  split
  · intro hp
    rfl
  · next h =>
      intro hp
      exact absurd hp h

lemma rotStep_pausedInv (s : RotState) (op : RotOp) (h : pausedInv s) :
    pausedInv (rotStep s op) := by
  cases op with
  | showIdx i =>
      intro hp
      rw [show rotStep s (RotOp.showIdx i) = showIndex s i from rfl] at hp ⊢
      rw [(showIndex_paused_timer s i).2]
      exact h ((showIndex_paused_timer s i).1 ▸ hp)
  | rotate k => exact rotateNext_pausedInv s k
  | nextBtn => exact rotateNext_pausedInv _ 1
  | prevBtn => exact rotateNext_pausedInv _ (-1)
  | pauseBtn => exact pauseClick_pausedInv s
  | fire =>
      rw [rotStep_fire s]
      split
      · exact h
      · exact rotateNext_pausedInv s 1

lemma rotInit_paused (loaded : List Item) : (rotInit loaded).paused = false := by
  unfold rotInit
  split
  · rfl
  · exact (showIndex_paused_timer _ 0).1

lemma rotInit_pausedInv (loaded : List Item) : pausedInv (rotInit loaded) := by
  intro hp
  rw [rotInit_paused loaded] at hp
  cases hp

lemma rotRun_pausedInv (ops : List RotOp) (s : RotState) (h : pausedInv s) :
    pausedInv (rotRun s ops) := by
  induction ops generalizing s with
  | nil => exact h
  | cons op t ih => exact ih (rotStep s op) (rotStep_pausedInv s op h)

lemma liveHandles_le_one (s : AMState) (h : s.droppedLive = 0) :
    liveHandles s ≤ 1 := by
  unfold liveHandles
  rw [h]
  split <;> omega

end PartyViz

/-! ## Claim theorems (Band Extractor, Frame Normalizer) -/

/-- C1: for every raw band value (synthetic triplet entry or scaled live
average, boosted or negative alike), the delivered Frame Normalizer value
is an integer `v` with `0 ≤ v ≤ 100`: min/max clamping to `[0,100]`
followed by flooring keeps the output in bounds regardless of input. -/
theorem frame_normalizer_bounded (x : ℚ) :
    0 ≤ PartyViz.normFloor x ∧ PartyViz.normFloor x ≤ 100 :=
  ⟨PartyViz.normFloor_nonneg x, PartyViz.normFloor_le x⟩

/-- C6: for every magnitude array and every half-open bin range `[s, e)`
(empty ranges and ranges reaching past the array included), the Band
Extractor's `getAverageVolume` equals the spec's arithmetic mean of the
defined entries — `0` when there are none — and is non-negative (division
by zero never occurs: the `count === 0` guard returns `0` first). -/
theorem band_extractor_average (array : List ℕ) (s e : ℕ) :
    PartyViz.getAverageVolume array s e = PartyViz.specAverage array s e ∧
      0 ≤ PartyViz.getAverageVolume array s e := by
  refine ⟨PartyViz.getAverageVolume_eq array s e, ?_⟩
  rw [PartyViz.getAverageVolume_eq]
  exact PartyViz.specAverage_nonneg array s e

/-- C2 counterexample: with two loaded entries of which the second's
renderer failed to instantiate (`instance: null`), advancing from entry 0
to entry 1 stops entry 0 and has nothing to start — zero modules are
Running afterwards, not exactly one. -/
theorem rotation_zero_running_cex :
    (PartyViz.rotRun (PartyViz.rotInit [PartyViz.fullItem 5, PartyViz.ghostItem])
        [PartyViz.RotOp.rotate 1]).running.count true = 0 ∧
      ¬ ((PartyViz.rotRun (PartyViz.rotInit [PartyViz.fullItem 5, PartyViz.ghostItem])
          [PartyViz.RotOp.rotate 1]).running.count true = 1) := by
  decide

/-- C2 (amended): given at least one loaded entry and **every** entry's
renderer successfully instantiated with `start`/`stop` hooks, after
startup and any sequence of UI-shaped operations (`rotateNext` with step
±1, in-range `showIndex`, next/prev, pause/resume toggles, timer firings)
exactly one module instance is Running — every transition deactivates the
current instance before activating the target. (Transitions onto
null-instance entries refute the unrestricted claim, see the
counterexample.) -/
theorem rotation_exactly_one_running (loaded : List PartyViz.Item)
    (ops : List PartyViz.RotOp) (h1 : loaded ≠ [])
    (h2 : PartyViz.fullLoaded loaded)
    (h3 : ∀ op ∈ ops, PartyViz.opOk loaded.length op = true) :
    (PartyViz.rotRun (PartyViz.rotInit loaded) ops).running.count true = 1 := by
  obtain ⟨hg0, hl0⟩ := PartyViz.rotInit_good loaded h1 h2
  have hfull : PartyViz.fullLoaded (PartyViz.rotInit loaded).loaded := by
    rw [hl0]
    exact h2
  have hops : ∀ op ∈ ops,
      PartyViz.opOk (PartyViz.rotInit loaded).loaded.length op = true := by
    intro op hop
    rw [hl0]
    exact h3 op hop
  exact PartyViz.goodRot_count _
    (PartyViz.rotRun_good ops _ hfull hg0 hops).1

/-- C2 witness: two fully-instantiated modules, a mixed operation
sequence; exactly one Running at the end. -/
theorem rotation_exactly_one_running_witness :
    ([PartyViz.fullItem 5, PartyViz.fullItem 3] ≠ ([] : List PartyViz.Item)) ∧
      PartyViz.fullLoaded [PartyViz.fullItem 5, PartyViz.fullItem 3] ∧
      (∀ op ∈ [PartyViz.RotOp.nextBtn, PartyViz.RotOp.pauseBtn,
          PartyViz.RotOp.pauseBtn, PartyViz.RotOp.fire, PartyViz.RotOp.prevBtn,
          PartyViz.RotOp.showIdx 1, PartyViz.RotOp.rotate (-1)],
        PartyViz.opOk 2 op = true) ∧
      (PartyViz.rotRun (PartyViz.rotInit [PartyViz.fullItem 5, PartyViz.fullItem 3])
          [PartyViz.RotOp.nextBtn, PartyViz.RotOp.pauseBtn,
            PartyViz.RotOp.pauseBtn, PartyViz.RotOp.fire, PartyViz.RotOp.prevBtn,
            PartyViz.RotOp.showIdx 1,
            PartyViz.RotOp.rotate (-1)]).running.count true = 1 :=
  ⟨by decide, by decide, by decide,
    rotation_exactly_one_running _ _ (by decide) (by decide) (by decide)⟩

/-- C3 counterexample: a module whose `updateFrequencies` throws makes the
tick finish with that exception — `startLoop`'s delivery has no
`try`/`catch`, so the exception is *not* caught at the call site; it
propagates out of the animation-frame callback. -/
theorem tick_exception_cex :
    (PartyViz.tick (some PartyViz.throwingModule) (50, 50, 50)
        { rafId := none, nextRafHandle := 0 }).2 = Except.error "boom" := rfl

/-- C3 (amended): an exception from a module's `updateFrequencies` is NOT
caught in the Distribution Loop's per-tick delivery (nor does `showIndex`
guard its `stop`/`start` calls with `try`/`catch`); the hook's outcome —
error included — is exactly what the tick callback finishes with. The
loop nevertheless survives, because the next animation frame was already
registered before delivery, and the throwing module stays in rotation
(the tick never touches the module list). -/
theorem tick_exception_uncaught (tm : PartyViz.TickModule)
    (f : ℤ → ℤ → ℤ → Except String Unit) (raw : ℚ × ℚ × ℚ)
    (s : PartyViz.LoopState) (h : tm.update = some f) :
    (PartyViz.tick (some tm) raw s).2 =
        f (PartyViz.normFloor raw.1) (PartyViz.normFloor raw.2.1)
          (PartyViz.normFloor raw.2.2) ∧
      (PartyViz.tick (some tm) raw s).1 =
        { rafId := some s.nextRafHandle,
          nextRafHandle := s.nextRafHandle + 1 } := by
  refine ⟨?_, PartyViz.tick_state _ _ _⟩
  simp [PartyViz.tick, h]

/-- C3 witness: the always-throwing module, delivered `(50,50,50)`. -/
theorem tick_exception_uncaught_witness :
    PartyViz.throwingModule.update = some (fun _ _ _ => Except.error "boom") ∧
      ((PartyViz.tick (some PartyViz.throwingModule) (50, 50, 50)
            { rafId := none, nextRafHandle := 0 }).2 =
          (fun _ _ _ => (Except.error "boom" : Except String Unit))
            (PartyViz.normFloor 50) (PartyViz.normFloor 50)
            (PartyViz.normFloor 50) ∧
        (PartyViz.tick (some PartyViz.throwingModule) (50, 50, 50)
            { rafId := none, nextRafHandle := 0 }).1 =
          { rafId := some 0, nextRafHandle := 1 }) :=
  ⟨rfl, tick_exception_uncaught PartyViz.throwingModule _ (50, 50, 50) _ rfl⟩

/-- C4 counterexample: two modules with durations `[5, 3]`; module 0 is
active; pausing then resuming arms a 3-second timer — the *next* module's
duration — while the active module's configured duration is 5. -/
theorem resume_timer_cex :
    (PartyViz.rotRun (PartyViz.rotInit [PartyViz.fullItem 5, PartyViz.fullItem 3])
        [PartyViz.RotOp.pauseBtn, PartyViz.RotOp.pauseBtn]).timer = some 3 ∧
      PartyViz.durationOf (PartyViz.idxGet
        (PartyViz.rotRun (PartyViz.rotInit
            [PartyViz.fullItem 5, PartyViz.fullItem 3])
          [PartyViz.RotOp.pauseBtn, PartyViz.RotOp.pauseBtn]).loaded
        (PartyViz.rotRun (PartyViz.rotInit
            [PartyViz.fullItem 5, PartyViz.fullItem 3])
          [PartyViz.RotOp.pauseBtn, PartyViz.RotOp.pauseBtn]).currentIndex) = 5 ∧
      (PartyViz.rotRun (PartyViz.rotInit [PartyViz.fullItem 5, PartyViz.fullItem 3])
          [PartyViz.RotOp.pauseBtn, PartyViz.RotOp.pauseBtn]).timer ≠
        some (PartyViz.durationOf (PartyViz.idxGet
          (PartyViz.rotRun (PartyViz.rotInit
              [PartyViz.fullItem 5, PartyViz.fullItem 3])
            [PartyViz.RotOp.pauseBtn, PartyViz.RotOp.pauseBtn]).loaded
          (PartyViz.rotRun (PartyViz.rotInit
              [PartyViz.fullItem 5, PartyViz.fullItem 3])
            [PartyViz.RotOp.pauseBtn, PartyViz.RotOp.pauseBtn]).currentIndex)) := by
  decide

/-- C4 (amended): resuming from pause re-arms the auto-advance timer with
the duration configured on the **next** entry,
`loaded[(currentIndex + 1) % loaded.length]` (8-second default when
unspecified or falsy) — not the current module's duration — and flips the
state back to auto-advancing. -/
theorem resume_uses_next_duration (s : PartyViz.RotState)
    (h : s.paused = true) :
    (PartyViz.pauseClick s).timer =
        some (PartyViz.durationOf (PartyViz.idxGet s.loaded
          ((s.currentIndex + 1).tmod (s.loaded.length : ℤ)))) ∧
      (PartyViz.pauseClick s).paused = false := by
  obtain ⟨l, r, ci, cur, p, t⟩ := s
  dsimp only at h
  subst h
  exact ⟨rfl, rfl⟩

/-- C4 witness: the paused two-module state; resume arms `some 3`, the
next entry's duration. -/
theorem resume_uses_next_duration_witness :
    (PartyViz.rotRun (PartyViz.rotInit [PartyViz.fullItem 5, PartyViz.fullItem 3])
        [PartyViz.RotOp.pauseBtn]).paused = true ∧
      (PartyViz.pauseClick (PartyViz.rotRun
          (PartyViz.rotInit [PartyViz.fullItem 5, PartyViz.fullItem 3])
          [PartyViz.RotOp.pauseBtn])).timer = some 3 :=
  ⟨by decide,
    (resume_uses_next_duration _ (by decide)).1.trans (by decide)⟩

/-- C5 counterexample: after a successful `enableLiveInput` (live mode,
one live stream), a failing device switch returns `false` but leaves
`isLive = true`, keeps the torn-down stream referenced
(`stream = some false`: tracks stopped, reference held), and the loop's
source choice (`isTestMode || !isLive`) is *not* synthetic — the claimed
"no partial state, synthetic continues" fails in the switch-while-live
case. -/
theorem enable_live_failure_cex :
    (PartyViz.enableLiveInput
        (PartyViz.enableLiveInput PartyViz.amInit true).1 false).2 = false ∧
      (PartyViz.enableLiveInput
        (PartyViz.enableLiveInput PartyViz.amInit true).1 false).1.isLive = true ∧
      (PartyViz.enableLiveInput
        (PartyViz.enableLiveInput PartyViz.amInit true).1 false).1.stream =
          some false ∧
      PartyViz.syntheticActive (PartyViz.enableLiveInput
        (PartyViz.enableLiveInput PartyViz.amInit true).1 false).1 = false := by
  decide

/-- C5 (amended): `enableLiveInput` always signals failure by returning
`false`; when live capture was **not** already active, the failure leaves
the live flag unset and the test-mode flag untouched, so the synthetic
source keeps driving the pipeline. (When called to switch devices while
already live, however, the live flag stays set and the stopped
stream/source remain referenced — no revert to synthetic occurs; see the
counterexample.) -/
theorem enable_live_failure_safe (s : PartyViz.AMState)
    (h : s.isLive = false) :
    (PartyViz.enableLiveInput s false).2 = false ∧
      (PartyViz.enableLiveInput s false).1.isLive = false ∧
      (PartyViz.enableLiveInput s false).1.isTestMode = s.isTestMode ∧
      PartyViz.syntheticActive (PartyViz.enableLiveInput s false).1 = true := by
  obtain ⟨ctx, run, st, src, d, live, test⟩ := s
  dsimp only at h
  subst h
  unfold PartyViz.enableLiveInput PartyViz.syntheticActive
  cases ctx <;> cases st <;> cases src <;> simp

/-- C5 witness: first-ever capture request denied on the fresh manager. -/
theorem enable_live_failure_safe_witness :
    PartyViz.amInit.isLive = false ∧
      ((PartyViz.enableLiveInput PartyViz.amInit false).2 = false ∧
        (PartyViz.enableLiveInput PartyViz.amInit false).1.isLive = false ∧
        (PartyViz.enableLiveInput PartyViz.amInit false).1.isTestMode =
          PartyViz.amInit.isTestMode ∧
        PartyViz.syntheticActive
          (PartyViz.enableLiveInput PartyViz.amInit false).1 = true) :=
  ⟨rfl, enable_live_failure_safe PartyViz.amInit rfl⟩

/-- C7: after any event sequence, whenever rotation is paused no
auto-advance timeout is pending — `pause` cleared it and `rotateNext`
schedules none while paused — so a timer firing is a no-op and no
timer-driven `showIndex` can occur before resume or manual navigation. -/
theorem pause_cancels_auto_advance (loaded : List PartyViz.Item)
    (ops : List PartyViz.RotOp)
    (h : (PartyViz.rotRun (PartyViz.rotInit loaded) ops).paused = true) :
    (PartyViz.rotRun (PartyViz.rotInit loaded) ops).timer = none ∧
      PartyViz.rotStep (PartyViz.rotRun (PartyViz.rotInit loaded) ops)
          PartyViz.RotOp.fire =
        PartyViz.rotRun (PartyViz.rotInit loaded) ops := by
  have ht := PartyViz.rotRun_pausedInv ops _ (PartyViz.rotInit_pausedInv loaded) h
  exact ⟨ht, by rw [PartyViz.rotStep_fire, if_pos ht]⟩

/-- C7 witness: two modules, pause pressed once — no pending timer, and a
timer firing changes nothing. -/
theorem pause_cancels_auto_advance_witness :
    (PartyViz.rotRun (PartyViz.rotInit [PartyViz.fullItem 5, PartyViz.fullItem 3])
        [PartyViz.RotOp.pauseBtn]).paused = true ∧
      ((PartyViz.rotRun (PartyViz.rotInit
          [PartyViz.fullItem 5, PartyViz.fullItem 3])
          [PartyViz.RotOp.pauseBtn]).timer = none ∧
        PartyViz.rotStep (PartyViz.rotRun (PartyViz.rotInit
            [PartyViz.fullItem 5, PartyViz.fullItem 3])
            [PartyViz.RotOp.pauseBtn]) PartyViz.RotOp.fire =
          PartyViz.rotRun (PartyViz.rotInit
            [PartyViz.fullItem 5, PartyViz.fullItem 3])
            [PartyViz.RotOp.pauseBtn]) :=
  ⟨by decide, pause_cancels_auto_advance _ _ (by decide)⟩

/-- C8: the template module's lifecycle is idempotent: a second `start()`
is a no-op (the double-start leaves exactly the one frame callback and
handle the first registered), `stop()` on a never-started module changes
nothing and throws nothing, `stop()` after running nulls the handle and
deregisters the callback, and a second `stop()` is a no-op. -/
theorem template_lifecycle_idempotent (e : PartyViz.RafEnv) :
    PartyViz.templateStart (PartyViz.templateStart PartyViz.templateNew e).1
        (PartyViz.templateStart PartyViz.templateNew e).2 =
      PartyViz.templateStart PartyViz.templateNew e ∧
      ((PartyViz.templateStart PartyViz.templateNew e).2).active.length =
        e.active.length + 1 ∧
      (PartyViz.templateStart PartyViz.templateNew e).1.frameId =
        some e.nextId ∧
      PartyViz.templateStop PartyViz.templateNew e = (PartyViz.templateNew, e) ∧
      (PartyViz.templateStop (PartyViz.templateStart PartyViz.templateNew e).1
          (PartyViz.templateStart PartyViz.templateNew e).2).1.frameId = none ∧
      (PartyViz.templateStop (PartyViz.templateStart PartyViz.templateNew e).1
          (PartyViz.templateStart PartyViz.templateNew e).2).2.active =
        e.active ∧
      PartyViz.templateStop
          (PartyViz.templateStop (PartyViz.templateStart PartyViz.templateNew e).1
            (PartyViz.templateStart PartyViz.templateNew e).2).1
          (PartyViz.templateStop (PartyViz.templateStart PartyViz.templateNew e).1
            (PartyViz.templateStart PartyViz.templateNew e).2).2 =
        PartyViz.templateStop (PartyViz.templateStart PartyViz.templateNew e).1
          (PartyViz.templateStart PartyViz.templateNew e).2 := by
  refine ⟨rfl, rfl, rfl, rfl, rfl, ?_, rfl⟩
  show ((e.nextId :: e.active).erase e.nextId) = e.active
  simp

/-- C9 counterexample: with one live capture handle held, toggling to
synthetic mode (`setTestMode(true)`) suspends the audio context but
releases **no** device handle — one handle is still held afterwards, not
zero — refuting "each switch from Live to Synthetic releases exactly one
device capture handle". -/
theorem set_test_mode_keeps_handle_cex :
    PartyViz.liveHandles (PartyViz.enableLiveInput PartyViz.amInit true).1 = 1 ∧
      PartyViz.liveHandles (PartyViz.setTestMode
        (PartyViz.enableLiveInput PartyViz.amInit true).1 true) = 1 ∧
      ¬ (PartyViz.liveHandles (PartyViz.setTestMode
        (PartyViz.enableLiveInput PartyViz.amInit true).1 true) = 0) ∧
      (PartyViz.setTestMode
        (PartyViz.enableLiveInput PartyViz.amInit true).1 true).ctxRunning =
          false := by
  decide

/-- C9 (amended): mode toggles never touch the device handle —
`setTestMode` suspends/resumes the audio context, leaving the handle
count unchanged — and across every sequence of mode toggles and
enable/switch requests at most one device capture handle is live at any
moment (a device switch stops the old stream's tracks before installing
the new one). -/
theorem at_most_one_device_handle :
    (∀ ops : List PartyViz.AMOp,
        PartyViz.liveHandles (PartyViz.amRun PartyViz.amInit ops) ≤ 1) ∧
      (∀ (s : PartyViz.AMState) (b : Bool),
        PartyViz.liveHandles (PartyViz.setTestMode s b) =
          PartyViz.liveHandles s) := by
  constructor
  · intro ops
    have hd : (PartyViz.amRun PartyViz.amInit ops).droppedLive = 0 := by
      rw [PartyViz.amRun_droppedLive]
      rfl
    exact PartyViz.liveHandles_le_one _ hd
  · exact PartyViz.liveHandles_setTestMode

/-- C10: every `startLoop` tick registers the next animation-frame
callback (assigning `this.rafId`) *before* invoking the active module's
`updateFrequencies`; the resulting loop state records the fresh handle no
matter how the delivery ends — even a throwing module (whose exception is
not caught inside the tick) cannot prevent the already-registered next
tick, so delivery survives any single module exception. -/
theorem tick_registers_next_frame_first (m : Option PartyViz.TickModule)
    (raw : ℚ × ℚ × ℚ) (s : PartyViz.LoopState) :
    ((PartyViz.tick m raw s).1).rafId = some s.nextRafHandle := by
  rw [PartyViz.tick_state]
